import Mathlib

/-!
Shallow embedding of `src/aur/aur.cc` (the asynchronous request engine of
auracle).  The engine is single threaded: all mutation happens inside the
reactor's blocking step (`sd_event_run`), so the code is modelled as a pure
state machine over `AurState`, driven by an explicit trace of external
events (socket wakes, child exits, reactor failures).

Conventions of the embedding:
* Heap identities (the `CURL*` easy handles, `sd_event_source*` child
  watchers and the `ResponseHandler` objects allocated with `new`) are
  modelled by natural-number ids drawn from a fresh-id counter `nextId`.
  A transfer handle and its handler share one id, as do a child watcher
  and its handler (they are created together, one to one).
* `active` models `active_requests_` (the `std::unordered_set` of
  `std::variant<CURL*, sd_event_source*>`) together with the per-handle
  handler association (`CURLINFO_PRIVATE` for transfers, the sd-event
  userdata pointer for child watchers).
* `invocations` is an observation log: one entry is appended exactly when
  `ResponseHandler::Run` (the caller-supplied callback) is invoked.
* `freed` is an observation log of handler deallocations (`delete`).
* A caller callback is external code; its observable effects on the engine
  are its integer return value (`cbRet`) and whether it re-entrantly calls
  `Aur::CancelAll` (`cbCancels`).  Both are supplied by the environment.
-/

namespace Auracle

/-- Error numbers used by `Aur::Wait` (Linux values: EIO = 5,
ECANCELED = 125); `Wait` returns their negations. -/
def eioErr : Int := -5

/-- Negated ECANCELED, returned by `Aur::Wait` when `cancelled_` is set. -/
def ecanceledErr : Int := -125

/-- Model of libcurl's `CURLcode` transfer outcome: `ok` is `CURLE_OK`,
`abortedByCallback` is `CURLE_ABORTED_BY_CALLBACK` (used by `Aur::Cancel`),
all other codes are represented by their numeric value. -/
inductive CURLcode where
  | ok
  | abortedByCallback
  | other (n : Nat)
deriving DecidableEq

/-- Model of libcurl's `curl_easy_strerror`: the engine's canonical text
for an outcome code.  The exact wording lives in libcurl, outside this
repository; the model only relies on it being a fixed function of the
code. -/
def curl_easy_strerror : CURLcode → String
  | CURLcode.ok => "No error"
  | CURLcode.abortedByCallback => "Operation was aborted by an application callback"
  | CURLcode.other n => "Unknown error " ++ toString n

/-- Model of libcurl's `curl_infotype`, the trace category passed to a
`CURLOPT_DEBUGFUNCTION`. -/
inductive CurlInfoType where
  | TEXT
  | HEADER_IN
  | HEADER_OUT
  | DATA_IN
  | DATA_OUT
  | SSL_DATA_IN
  | SSL_DATA_OUT
deriving DecidableEq

/-- `ResponseHandler::DebugCallback` (aur.cc lines 56-66): ignores every
trace category except `CURLINFO_HEADER_OUT`; for header-out data it writes
the bytes to the `std::ofstream` (modelled as the string of file
contents).  Returns 0 in both cases. -/
def ResponseHandler.DebugCallback (ty : CurlInfoType) (data : String)
    (stream : String) : Int × String :=
  if ty ≠ CurlInfoType.HEADER_OUT then (0, stream)
  else (0, stream ++ data)

/-- Folding `ResponseHandler.DebugCallback` over a trace of
(category, bytes) events delivered by libcurl, starting from given file
contents. -/
def runDebugTrace (evts : List (CurlInfoType × String)) (stream : String) : String :=
  evts.foldl (fun s p => (ResponseHandler.DebugCallback p.1 p.2 s).2) stream

/-- The `Aur::DebugLevel` enumeration.  Modelled from the spec: the
enumerators and the `NONE` default of the `debug_level_` member are
declared in `aur.hh`, which is not part of the given sources; the spec
says an unset or empty toggle selects no tracing. -/
inductive DebugLevel where
  | NONE
  | REQUESTS
  | VERBOSE_STDERR
deriving DecidableEq

/-- Debug-mode selection in the `Aur::Aur` constructor (aur.cc lines
147-153).  `ConsumePrefix` checks `view->find(prefix) != 0`, i.e. whether
the first occurrence of the prefix is at position 0, which holds exactly
when the string starts with the prefix; on success it drops the prefix.
Returns the selected level and, in `REQUESTS` mode, the path of the trace
file (opened with `std::ofstream::trunc`, so its initial contents are
empty). -/
def debugInit (env : String) : DebugLevel × Option String :=
  if env.data.take ("requests:".data.length) = "requests:".data then
    (DebugLevel.REQUESTS, some (String.mk (env.data.drop ("requests:".data.length))))
  else if env ≠ "" then (DebugLevel.VERBOSE_STDERR, none)
  else (DebugLevel.NONE, none)

/-- How a handler materializes its typed response at finalize time:
`typed` is the default `TypedResponseHandler::MakeResponse` (wrap the
accumulated body); `clone op` is `CloneResponseHandler::MakeResponse`
(wrap the operation string, discarding the body). -/
inductive RespKind where
  | typed
  | clone (operation : String)
deriving DecidableEq

/-- A typed response object as handed to the caller callback: either a
body-wrapping response (`RpcResponse` / `RawResponse`) or a
`CloneResponse` wrapping the operation name. -/
inductive Response where
  | body (s : String)
  | clone (operation : String)
deriving DecidableEq

/-- One `ResponseHandler` object: the accumulated body, the per-handle
curl error buffer (`error_buffer`), the response kind, and the identity
of the caller-supplied callback it holds (`cbTag`). -/
structure Handler where
  body : String
  errorBuffer : String
  respKind : RespKind
  cbTag : Nat
deriving DecidableEq

/-- `TypedResponseHandler::MakeResponse` / `CloneResponseHandler::MakeResponse`. -/
def makeResponse (h : Handler) : Response :=
  match h.respKind with
  | RespKind.typed => Response.body h.body
  | RespKind.clone op => Response.clone op

/-- The two alternatives of the `std::variant<CURL*, sd_event_source*>`
stored in `active_requests_`: a transfer handle or a child-exit watcher. -/
inductive HandleKind where
  | transfer
  | child
deriving DecidableEq

/-- One member of the active-request set, together with the handler
reachable from it (via `CURLINFO_PRIVATE` or the watcher's userdata). -/
structure ActiveEntry where
  kind : HandleKind
  id : Nat
  handler : Handler
deriving DecidableEq

/-- Observation of one callback invocation (`ResponseHandler::Run`):
the handler's id, the identity of the caller-supplied callback, and the
`ResponseWrapper(MakeResponse(), status, error)` arguments. -/
structure Invocation where
  id : Nat
  cbTag : Nat
  response : Response
  status : Int
  error : String
deriving DecidableEq

/-- The engine state: `active_requests_` with its handler association,
the `cancelled_` flag, the two observation logs and the fresh-id
counter. -/
structure AurState where
  active : List ActiveEntry
  cancelled : Bool
  invocations : List Invocation
  freed : List Nat
  nextId : Nat
deriving DecidableEq

/-- Remove every entry with the given id from the active set (erasure of
one handle; ids are unique in any reachable state). -/
def eraseId (l : List ActiveEntry) (id : Nat) : List ActiveEntry :=
  l.filter (fun e => e.id ≠ id)

/-- Look up the active entry for a handle id (the `CURLINFO_PRIVATE` /
userdata dereference). -/
def lookupActive (st : AurState) (id : Nat) : Option ActiveEntry :=
  st.active.find? (fun e => e.id = id)

namespace Aur

/-- `Aur::FinishRequest(CURL*, ..., dispatch_callback=false)` as used by
`Aur::Cancel`'s visitor: delete the handler without invoking it, erase
the handle from the active set, remove it from the multi handle and
clean it up. -/
def finishCurlNoDispatch (st : AurState) (id : Nat) : AurState :=
  { st with freed := st.freed ++ [id], active := eraseId st.active id }

/-- `Aur::FinishRequest(sd_event_source*)` (aur.cc lines 346-350): erase
the watcher from the active set and unref the event source.  The handler
reachable from the watcher is neither invoked nor deleted. -/
def FinishRequestSource (st : AurState) (id : Nat) : AurState :=
  { st with active := eraseId st.active id }

/-- `Aur::Cancel` (aur.cc lines 170-185): visit the variant; a transfer
handle is finished with `CURLE_ABORTED_BY_CALLBACK` and no callback
dispatch, a child watcher is finished via the source overload. -/
def Cancel (st : AurState) (e : ActiveEntry) : AurState :=
  match e.kind with
  | HandleKind.transfer => finishCurlNoDispatch st e.id
  | HandleKind.child => FinishRequestSource st e.id

/-- `Aur::CancelAll` (aur.cc lines 187-193): pop and cancel entries until
the active set is empty, then set `cancelled_`.  Each `Cancel` removes
exactly the entry it is given and inserts nothing, so the while loop over
`*active_requests_.begin()` is a fold over a snapshot of the set. -/
def CancelAll (st : AurState) : AurState :=
  let st' := st.active.foldl Cancel st
  { st' with cancelled := true }

/-- `ResponseHandler::RunCallback` (aur.cc lines 68-72): run the
caller-supplied callback (`Run`), then `delete this`, then return the
callback's value.  The callback is external code: it may re-entrantly
call `Aur::CancelAll` (`cbCancels`), and it returns `cbRet`. -/
def RunCallback (st : AurState) (e : ActiveEntry) (status : Int)
    (error : String) (cbRet : Int) (cbCancels : Bool) : Int × AurState :=
  let st1 : AurState :=
    { st with invocations := st.invocations ++
        [{ id := e.id, cbTag := e.handler.cbTag, response := makeResponse e.handler,
           status := status, error := error }] }
  let st2 : AurState := if cbCancels then CancelAll st1 else st1
  (cbRet, { st2 with freed := st2.freed ++ [e.id] })

/-- `Aur::FinishRequest(CURL*, CURLcode, bool)` (aur.cc lines 317-344):
look up the handler via `CURLINFO_PRIVATE`; when dispatching, read the
response code, compute the error string (empty on `CURLE_OK`, else the
per-handle `error_buffer` if non-empty, else `curl_easy_strerror`), run
the callback; in both branches erase the handle from the active set and
release the easy handle.  Returns the callback's value (0 when not
dispatching). -/
def FinishRequestCurl (st : AurState) (e : ActiveEntry) (result : CURLcode)
    (dispatchCallback : Bool) (respCode : Int) (cbRet : Int)
    (cbCancels : Bool) : Int × AurState :=
  if dispatchCallback then
    let error : String :=
      if result = CURLcode.ok then ""
      else if e.handler.errorBuffer ≠ "" then e.handler.errorBuffer
      else curl_easy_strerror result
    let p := RunCallback st e respCode error cbRet cbCancels
    (p.1, { p.2 with active := eraseId p.2.active e.id })
  else
    (0, { st with freed := st.freed ++ [e.id], active := eraseId st.active e.id })

/-- `Aur::CheckFinished` (aur.cc lines 352-367) in the case where
`curl_multi_info_read` reports one completed transfer: finish it with
callback dispatch; if the result is negative, escalate to `CancelAll`. -/
def CheckFinishedDone (st : AurState) (e : ActiveEntry) (result : CURLcode)
    (respCode : Int) (cbRet : Int) (cbCancels : Bool) : Int × AurState :=
  let p := FinishRequestCurl st e result true respCode cbRet cbCancels
  if p.1 < 0 then (p.1, CancelAll p.2) else p

/-- `Aur::OnCloneExit` (aur.cc lines 438-451): finish the watcher first
(erasing it from the active set), then compute the error string from the
child's exit status, then run the handler's callback with the status. -/
def OnCloneExit (st : AurState) (e : ActiveEntry) (siStatus : Int)
    (cbRet : Int) (cbCancels : Bool) : Int × AurState :=
  let st1 := FinishRequestSource st e.id
  let error : String :=
    if siStatus ≠ 0 then
      "git exited with unexpected exit status " ++ toString siStatus
    else ""
  RunCallback st1 e siStatus error cbRet cbCancels

end Aur

/-- One external occurrence consumed by one iteration of the `Aur::Wait`
loop (one `sd_event_run` call): the step itself fails; or it dispatches
nothing that completes a request; or a socket/timer wake leads
`curl_multi_info_read` to report transfer `id` done with the given
outcome and response code; or the child watcher `id` fires with the
child's exit status.  Completion events carry the observable behavior of
the caller callback they trigger. -/
inductive Event where
  | stepFail
  | spurious
  | transferDone (id : Nat) (result : CURLcode) (respCode : Int)
      (cbRet : Int) (cbCancels : Bool)
  | childExit (id : Nat) (siStatus : Int) (cbRet : Int) (cbCancels : Bool)
deriving DecidableEq

namespace Aur

/-- Effect of one `sd_event_run` call on the engine state.  `none` means
the blocking step itself failed.  Completion events only fire for handles
of the matching kind still in the active set: libcurl reports `DONE` only
for easy handles still in the multi, and a child watcher is a one-shot
source that is unreferenced when finished. -/
def stepEvent (st : AurState) (ev : Event) : Option AurState :=
  match ev with
  | Event.stepFail => none
  | Event.spurious => some st
  | Event.transferDone id result respCode cbRet cbCancels =>
    match lookupActive st id with
    | some e =>
      if e.kind = HandleKind.transfer then
        some (CheckFinishedDone st e result respCode cbRet cbCancels).2
      else some st
    | none => some st
  | Event.childExit id siStatus cbRet cbCancels =>
    match lookupActive st id with
    | some e =>
      if e.kind = HandleKind.child then
        some (OnCloneExit st e siStatus cbRet cbCancels).2
      else some st
    | none => some st

/-- The loop of `Aur::Wait` (aur.cc lines 372-378): while the active set
is non-empty, run one blocking step; a failing step returns `-EIO`; when
the set is empty, return `-ECANCELED` if the flag is set, else 0.  The
model returns `none` when the supplied event trace is exhausted with work
still in flight (the real loop would keep blocking). -/
def waitLoop (evs : List Event) (st : AurState) : Option (Int × AurState) :=
  if st.active.isEmpty then
    some (if st.cancelled then ecanceledErr else 0, st)
  else
    match evs with
    | [] => none
    | ev :: rest =>
      match stepEvent st ev with
      | none => some (eioErr, st)
      | some st' => waitLoop rest st'

/-- `Aur::Wait` (aur.cc lines 369-379): clear `cancelled_`, then run the
loop. -/
def Wait (evs : List Event) (st : AurState) : Option (Int × AurState) :=
  waitLoop evs { st with cancelled := false }

/-- `Aur::QueueHttpRequest` (aur.cc lines 399-435): for each endpoint
returned by `request.Build(options_.baseurl)`, allocate one easy handle
and one fresh `TypedResponseHandler` holding the caller's callback (empty
body, zeroed error buffer), add the handle to the multi and insert it
into the active set. -/
def QueueHttpRequest (st : AurState) (endpoints : List String) (cbTag : Nat) :
    AurState :=
  endpoints.foldl
    (fun s _r =>
      { s with
        active := s.active ++
          [{ kind := HandleKind.transfer, id := s.nextId,
             handler := { body := "", errorBuffer := "", respKind := RespKind.typed,
                          cbTag := cbTag } }],
        nextId := s.nextId + 1 })
    st

/-- Model of the C library's `strerror`, used in the fork-failure
message.  The exact wording is external to this repository; the model
only relies on it being a fixed rendering of the error number. -/
def strerrorSys (errno : Nat) : String := "strerror " ++ toString errno

/-- The argument vector `cmd` built in the child branch of
`Aur::QueueCloneRequest` (aur.cc lines 470-494), without the terminating
null pointer. -/
def cloneCmd (update : Bool) (reponame url : String) : List String :=
  if update then
    ["git", "-C", reponame, "pull", "--quiet", "--rebase", "--autostash", "--ff-only"]
  else
    ["git", "clone", "--quiet", url]

/-- `Aur::QueueCloneRequest` (aur.cc lines 453-504): decide between
update and clone by testing `reponame/.git` (the result of that
filesystem test is the parameter `gitMarkerExists`), allocate a
`CloneResponseHandler` recording the operation name, then fork.  On fork
failure (`forkResult = .error errno`) run the callback synchronously with
`-errno` and a descriptive message and return without touching the active
set.  On success, the child would execute `cloneCmd` (returned as the
second component for observation; the parent registers a child-exit
watcher for the new pid and inserts it into the active set).  `buildUrl`
is `request.Build(options_.baseurl)[0]`. -/
def QueueCloneRequest (st : AurState) (reponame buildUrl : String)
    (gitMarkerExists : Bool) (forkResult : Except Nat Nat) (cbTag : Nat)
    (cbRet : Int) (cbCancels : Bool) : AurState × Option (List String) :=
  let update := gitMarkerExists
  let handler : Handler :=
    { body := "", errorBuffer := "",
      respKind := RespKind.clone (if update then "update" else "clone"),
      cbTag := cbTag }
  let hid := st.nextId
  let st1 : AurState := { st with nextId := st.nextId + 1 }
  match forkResult with
  | Except.error errno =>
    let p := RunCallback st1 { kind := HandleKind.child, id := hid, handler := handler }
      (-(errno : Int))
      ("failed to fork new process for git: " ++ strerrorSys errno) cbRet cbCancels
    (p.2, none)
  | Except.ok _pid =>
    ({ st1 with active := st1.active ++
        [{ kind := HandleKind.child, id := hid, handler := handler }] },
     some (cloneCmd update reponame buildUrl))

end Aur

/-- Handler ids recorded in the invocation log. -/
def invIds (st : AurState) : List Nat := st.invocations.map Invocation.id

/-- Handle ids of the active set. -/
def activeIds (st : AurState) : List Nat := st.active.map ActiveEntry.id

/-- Reachable-state invariant used by the wait-loop theorems: active
handle ids are pairwise distinct, logged handler ids are pairwise
distinct, and no handler still reachable from the active set has been
invoked. -/
def Inv (st : AurState) : Prop :=
  (activeIds st).Nodup ∧ (invIds st).Nodup ∧
    ∀ e ∈ st.active, e.id ∉ invIds st

instance (st : AurState) : Decidable (Inv st) := by
  unfold Inv; infer_instance

/-! ### Basic lemmas about erasure and cancellation -/

theorem mem_eraseId {l : List ActiveEntry} {id : Nat} {x : ActiveEntry} :
    x ∈ eraseId l id ↔ x ∈ l ∧ x.id ≠ id := by
  simp [eraseId, List.mem_filter]

theorem eraseId_sublist (l : List ActiveEntry) (id : Nat) :
    (eraseId l id).Sublist l :=
  List.filter_sublist l

theorem eraseId_length {l : List ActiveEntry} {e : ActiveEntry} (he : e ∈ l)
    (hn : (l.map ActiveEntry.id).Nodup) :
    (eraseId l e.id).length + 1 = l.length := by
  induction l with
  | nil => cases he
  | cons x xs ih =>
    by_cases hx : x.id = e.id
    · have hxs : eraseId (x :: xs) e.id = xs := by
        have hnotin : x.id ∉ xs.map ActiveEntry.id := by
          simpa using (List.nodup_cons.mp hn).1
        have : ∀ y ∈ xs, y.id ≠ e.id := by
          intro y hy hcon
          exact hnotin (by rw [hx, ← hcon]; exact List.mem_map_of_mem _ hy)
        simp only [eraseId, List.filter_cons]
        rw [if_neg (by simp [hx]), List.filter_eq_self.mpr (by intro y hy; simpa using this y hy)]
      simp [hxs]
    · have hexs : e ∈ xs := by
        cases List.mem_cons.mp he with
        | inl h => exact absurd (congrArg ActiveEntry.id h.symm) hx
        | inr h => exact h
      have : eraseId (x :: xs) e.id = x :: eraseId xs e.id := by
        simp only [eraseId, List.filter_cons]
        rw [if_pos (by simp [hx])]
      rw [this]
      simp only [List.length_cons]
      rw [ih hexs (List.nodup_cons.mp hn).2]

theorem Cancel_active (st : AurState) (e : ActiveEntry) :
    (Aur.Cancel st e).active = eraseId st.active e.id := by
  cases h : e.kind <;>
    simp [Aur.Cancel, h, Aur.finishCurlNoDispatch, Aur.FinishRequestSource]

theorem Cancel_invocations (st : AurState) (e : ActiveEntry) :
    (Aur.Cancel st e).invocations = st.invocations := by
  cases h : e.kind <;>
    simp [Aur.Cancel, h, Aur.finishCurlNoDispatch, Aur.FinishRequestSource]

theorem Cancel_cancelled (st : AurState) (e : ActiveEntry) :
    (Aur.Cancel st e).cancelled = st.cancelled := by
  cases h : e.kind <;>
    simp [Aur.Cancel, h, Aur.finishCurlNoDispatch, Aur.FinishRequestSource]

theorem Cancel_freed (st : AurState) (e : ActiveEntry) :
    (Aur.Cancel st e).freed =
      if e.kind = HandleKind.transfer then st.freed ++ [e.id] else st.freed := by
  cases h : e.kind <;>
    simp [Aur.Cancel, h, Aur.finishCurlNoDispatch, Aur.FinishRequestSource]

theorem foldlCancel_invocations (l : List ActiveEntry) :
    ∀ st : AurState, (l.foldl Aur.Cancel st).invocations = st.invocations := by
  induction l with
  | nil => intro st; rfl
  | cons e xs ih => intro st; rw [List.foldl_cons, ih, Cancel_invocations]

theorem foldlCancel_active_nil (l : List ActiveEntry) :
    ∀ st : AurState, (∀ x ∈ st.active, ∃ e ∈ l, x.id = e.id) →
      (l.foldl Aur.Cancel st).active = [] := by
  induction l with
  | nil =>
    intro st h
    cases hA : st.active with
    | nil => simpa using hA
    | cons y ys =>
      obtain ⟨e, he, -⟩ := h y (by rw [hA]; exact List.mem_cons_self y ys)
      cases he
  | cons e xs ih =>
    intro st h
    rw [List.foldl_cons]
    apply ih
    intro x hx
    rw [Cancel_active] at hx
    obtain ⟨hx', hneq⟩ := mem_eraseId.mp hx
    obtain ⟨e', he', heq⟩ := h x hx'
    cases List.mem_cons.mp he' with
    | inl h1 => exact absurd (heq.trans (congrArg ActiveEntry.id h1)) hneq
    | inr h2 => exact ⟨e', h2, heq⟩

theorem cancelAll_active (st : AurState) : (Aur.CancelAll st).active = [] := by
  show (st.active.foldl Aur.Cancel st).active = []
  exact foldlCancel_active_nil st.active st (fun x hx => ⟨x, hx, rfl⟩)

theorem cancelAll_invocations (st : AurState) :
    (Aur.CancelAll st).invocations = st.invocations := by
  show (st.active.foldl Aur.Cancel st).invocations = st.invocations
  exact foldlCancel_invocations st.active st

theorem cancelAll_cancelled (st : AurState) : (Aur.CancelAll st).cancelled = true := rfl

theorem foldlCancel_freed_mono (l : List ActiveEntry) :
    ∀ st : AurState, ∀ i ∈ st.freed, i ∈ (l.foldl Aur.Cancel st).freed := by
  induction l with
  | nil => intro st i hi; exact hi
  | cons e xs ih =>
    intro st i hi
    rw [List.foldl_cons]
    apply ih
    rw [Cancel_freed]
    by_cases hk : e.kind = HandleKind.transfer <;> simp [hk, hi]

theorem foldlCancel_freed_transfer (l : List ActiveEntry) :
    ∀ st : AurState, ∀ e ∈ l, e.kind = HandleKind.transfer →
      e.id ∈ (l.foldl Aur.Cancel st).freed := by
  induction l with
  | nil => intro st e he; cases he
  | cons x xs ih =>
    intro st e he hk
    rw [List.foldl_cons]
    cases List.mem_cons.mp he with
    | inl h1 =>
      subst h1
      apply foldlCancel_freed_mono
      rw [Cancel_freed, if_pos hk]
      simp
    | inr h2 => exact ih _ e h2 hk

theorem foldlCancel_freed_not (l : List ActiveEntry) (i : Nat) :
    ∀ st : AurState, (∀ e ∈ l, e.kind = HandleKind.transfer → e.id ≠ i) →
      i ∉ st.freed → i ∉ (l.foldl Aur.Cancel st).freed := by
  induction l with
  | nil => intro st _ hni; exact hni
  | cons x xs ih =>
    intro st h hni
    rw [List.foldl_cons]
    apply ih
    · intro e he hk; exact h e (List.mem_cons_of_mem x he) hk
    · rw [Cancel_freed]
      by_cases hk : x.kind = HandleKind.transfer
      · rw [if_pos hk]
        simp only [List.mem_append, List.mem_singleton]
        rintro (hc | hc)
        · exact hni hc
        · exact h x (List.mem_cons_self x xs) hk hc.symm
      · rw [if_neg hk]; exact hni

/-! ### Claim C2 -/

/-- Example handler of a synchronization request (a `CloneResponseHandler`
for a "clone" operation). -/
def hClone : Handler :=
  { body := "", errorBuffer := "", respKind := RespKind.clone "clone", cbTag := 0 }

/-- Example handler of a network transfer (a `TypedResponseHandler`). -/
def hTyped : Handler :=
  { body := "", errorBuffer := "", respKind := RespKind.typed, cbTag := 0 }

/-- An in-flight transfer entry whose curl error buffer has been filled. -/
def entBuf : ActiveEntry :=
  { kind := HandleKind.transfer, id := 0,
    handler := { body := "", errorBuffer := "buffered detail", respKind := RespKind.typed,
                 cbTag := 0 } }

/-- An in-flight transfer entry with an empty error buffer. -/
def entPlain : ActiveEntry :=
  { kind := HandleKind.transfer, id := 0, handler := hTyped }

/-- The empty engine state, as right after `Aur::Aur`. -/
def stEmpty : AurState :=
  { active := [], cancelled := false, invocations := [], freed := [], nextId := 0 }

/-- A state with one freshly queued synchronization request in flight
(obtained by queuing a clone request from the empty engine state). -/
def stQueuedClone : AurState :=
  (Aur.QueueCloneRequest
    { active := [], cancelled := false, invocations := [], freed := [], nextId := 0 }
    "pkg" "https://aur.example/pkg.git" false (Except.ok 17) 0 0 false).1

/-- C2 counterexample: with M = N = 1 request in flight, `CancelAll`
executes (outside any Wait); the next blocking `Wait` call starts by
clearing `cancelled_` (aur.cc line 370) and, finding the active set
empty, returns 0 (success), not the cancellation status. -/
theorem cancelAll_then_next_wait_succeeds :
    stQueuedClone.active.length = 1 ∧
    (Aur.CancelAll stQueuedClone).active = [] ∧
    Aur.Wait [] (Aur.CancelAll stQueuedClone) =
      some (0, { Aur.CancelAll stQueuedClone with cancelled := false }) ∧
    (0 : Int) ≠ ecanceledErr := by decide

/-- C2 (amended): when `CancelAll` executes while requests are in flight,
the active set is empty on return, no callback is invoked during
cancellation or afterwards (the invocation log is exactly preserved, so
the already-completed requests' invocations remain and the in-flight ones
never appear), and a `Wait` call already in progress returns the
cancellation status as soon as its loop resumes, whatever events follow. -/
theorem cancelAll_midflight (st : AurState) :
    (Aur.CancelAll st).active = [] ∧
    (Aur.CancelAll st).invocations = st.invocations ∧
    (Aur.CancelAll st).cancelled = true ∧
    ∀ evs : List Event,
      Aur.waitLoop evs (Aur.CancelAll st) = some (ecanceledErr, Aur.CancelAll st) := by
  refine ⟨cancelAll_active st, cancelAll_invocations st, rfl, ?_⟩
  intro evs
  rw [Aur.waitLoop.eq_def]
  simp [cancelAll_active st, cancelAll_cancelled st]

/-! ### Claim C3 -/

/-- A state whose active set holds a single child-exit watcher. -/
def stChild : AurState :=
  { active := [{ kind := HandleKind.child, id := 0, handler := hClone }],
    cancelled := false, invocations := [], freed := [], nextId := 1 }

/-- C3 counterexample: cancelling a state holding one child-exit watcher
empties the active set, but the watcher's Handler is never deallocated
(the freed log stays empty): `Aur::FinishRequest(sd_event_source*)` only
erases and unrefs the source. -/
theorem cancelAll_child_handler_not_released :
    (Aur.CancelAll stChild).active = [] ∧
    (Aur.CancelAll stChild).freed = [] ∧
    (0 : Nat) ∉ (Aur.CancelAll stChild).freed := by decide

/-- C3 (amended): by the time `CancelAll` returns the active set is empty
and every formerly in-flight transfer Handler has been released, but the
Handler of a child-exit watcher is not deallocated (the watcher is only
removed from the active set and unreferenced). -/
theorem cancelAll_releases_transfers_only (st : AurState)
    (hN : (activeIds st).Nodup) :
    (Aur.CancelAll st).active = [] ∧
    (∀ e ∈ st.active, e.kind = HandleKind.transfer →
      e.id ∈ (Aur.CancelAll st).freed) ∧
    (∀ e ∈ st.active, e.kind = HandleKind.child → e.id ∉ st.freed →
      e.id ∉ (Aur.CancelAll st).freed) := by
  refine ⟨cancelAll_active st, ?_, ?_⟩
  · intro e he hk
    show e.id ∈ (st.active.foldl Aur.Cancel st).freed
    exact foldlCancel_freed_transfer st.active st e he hk
  · intro e he hk hnf
    show e.id ∉ (st.active.foldl Aur.Cancel st).freed
    apply foldlCancel_freed_not st.active e.id st _ hnf
    intro x hx hxk hcon
    have hxe : x = e := List.inj_on_of_nodup_map hN hx he hcon
    rw [hxe, hk] at hxk
    cases hxk

/-- Witness for `cancelAll_releases_transfers_only`: a state with one
transfer and one child watcher; the transfer's handler id 0 is freed, the
watcher's handler id 1 is not. -/
def stMixed : AurState :=
  { active := [{ kind := HandleKind.transfer, id := 0, handler := hTyped },
               { kind := HandleKind.child, id := 1, handler := hClone }],
    cancelled := false, invocations := [], freed := [], nextId := 2 }

theorem runCallback_fst (st : AurState) (e : ActiveEntry) (status : Int)
    (error : String) (cbRet : Int) (cbCancels : Bool) :
    (Aur.RunCallback st e status error cbRet cbCancels).1 = cbRet := rfl

theorem finishRequestCurl_dispatch_fst (st : AurState) (e : ActiveEntry)
    (result : CURLcode) (respCode cbRet : Int) (cbCancels : Bool) :
    (Aur.FinishRequestCurl st e result true respCode cbRet cbCancels).1 = cbRet := rfl

/-! ### Claim C4 -/

/-- A state with a single in-flight transfer. -/
def stOneTransfer : AurState :=
  { active := [{ kind := HandleKind.transfer, id := 0, handler := hTyped }],
    cancelled := false, invocations := [], freed := [], nextId := 1 }

/-- C4 counterexample: with one transfer in flight, a failing reactor
step makes `Wait` return `-EIO` immediately; no `CancelAll` happens, the
in-flight handle is still in the active set and its handler was not
released. -/
theorem wait_stepfail_leaves_active_set :
    Aur.Wait [Event.stepFail] stOneTransfer = some (eioErr, stOneTransfer) ∧
    stOneTransfer.active ≠ [] ∧
    stOneTransfer.freed = [] ∧
    stOneTransfer.cancelled = false := by decide

/-- C4 (amended): if the reactor's blocking step fails during `Wait`,
`Wait` returns `-EIO` with the engine state untouched apart from the
cleared cancellation flag (no `CancelAll`, no callback, no release, the
active set keeps all in-flight handles).  The `CancelAll` escalation is
tied instead to a drained completion whose callback returns a negative
value: in that case the active set is empty and the flag set afterwards. -/
theorem wait_stepfail_no_escalation (st : AurState) (evs : List Event)
    (h : st.active ≠ []) :
    Aur.Wait (Event.stepFail :: evs) st =
      some (eioErr, { st with cancelled := false }) ∧
    ({ st with cancelled := false } : AurState).active = st.active ∧
    ({ st with cancelled := false } : AurState).invocations = st.invocations ∧
    ({ st with cancelled := false } : AurState).freed = st.freed ∧
    (∀ (e : ActiveEntry) (result : CURLcode) (respCode cbRet : Int)
        (cbCancels : Bool), cbRet < 0 →
      (Aur.CheckFinishedDone st e result respCode cbRet cbCancels).2.active = [] ∧
      (Aur.CheckFinishedDone st e result respCode cbRet cbCancels).2.cancelled = true) := by
  refine ⟨?_, rfl, rfl, rfl, ?_⟩
  · rw [Aur.Wait, Aur.waitLoop.eq_def]
    simp only [List.isEmpty_iff]
    rw [if_neg (by simpa using h)]
    rfl
  · intro e result respCode cbRet cbCancels hneg
    simp only [Aur.CheckFinishedDone, finishRequestCurl_dispatch_fst, if_pos hneg]
    exact ⟨cancelAll_active _, rfl⟩

theorem wait_stepfail_no_escalation_witness :
    Aur.Wait (Event.stepFail :: []) stOneTransfer =
      some (eioErr, { stOneTransfer with cancelled := false }) ∧
    (Aur.CheckFinishedDone stOneTransfer entPlain CURLcode.ok 200 (-1) false).2.active = [] ∧
    (Aur.CheckFinishedDone stOneTransfer entPlain CURLcode.ok 200 (-1) false).2.cancelled = true :=
  ⟨(wait_stepfail_no_escalation stOneTransfer [] (by decide)).1,
   ((wait_stepfail_no_escalation stOneTransfer [] (by decide)).2.2.2.2
      entPlain CURLcode.ok 200 (-1) false (by decide)).1,
   ((wait_stepfail_no_escalation stOneTransfer [] (by decide)).2.2.2.2
      entPlain CURLcode.ok 200 (-1) false (by decide)).2⟩

/-! ### Claim C5 -/

/-- C5: the error string of a transfer finalized with callback dispatch
(`Aur::FinishRequest(CURL*, CURLcode, true)`): empty on a successful
outcome; on a non-success outcome, the per-handle captured error buffer
when that is non-empty, else the engine's canonical text
(`curl_easy_strerror`) for the outcome code.  The conclusion exhibits the
single invocation appended to the log, carrying the materialized response
and the `CURLINFO_RESPONSE_CODE` status. -/
theorem finishRequest_error_string (st : AurState) (e : ActiveEntry)
    (result : CURLcode) (respCode cbRet : Int) :
    (result = CURLcode.ok →
      (Aur.FinishRequestCurl st e result true respCode cbRet false).2.invocations =
        st.invocations ++
          [{ id := e.id, cbTag := e.handler.cbTag, response := makeResponse e.handler,
             status := respCode, error := "" }]) ∧
    (result ≠ CURLcode.ok → e.handler.errorBuffer ≠ "" →
      (Aur.FinishRequestCurl st e result true respCode cbRet false).2.invocations =
        st.invocations ++
          [{ id := e.id, cbTag := e.handler.cbTag, response := makeResponse e.handler,
             status := respCode, error := e.handler.errorBuffer }]) ∧
    (result ≠ CURLcode.ok → e.handler.errorBuffer = "" →
      (Aur.FinishRequestCurl st e result true respCode cbRet false).2.invocations =
        st.invocations ++
          [{ id := e.id, cbTag := e.handler.cbTag, response := makeResponse e.handler,
             status := respCode, error := curl_easy_strerror result }]) := by
  refine ⟨?_, ?_, ?_⟩
  · intro hok
    simp [Aur.FinishRequestCurl, Aur.RunCallback, eraseId, hok]
  · intro hnok hbuf
    simp [Aur.FinishRequestCurl, Aur.RunCallback, eraseId, hnok, hbuf]
  · intro hnok hbuf
    simp [Aur.FinishRequestCurl, Aur.RunCallback, eraseId, hnok, hbuf]

theorem finishRequest_error_string_witness :
    ((Aur.FinishRequestCurl stOneTransfer entPlain CURLcode.ok true 200 0 false).2.invocations =
      stOneTransfer.invocations ++
        [{ id := 0, cbTag := 0, response := makeResponse entPlain.handler,
           status := 200, error := "" }]) ∧
    ((Aur.FinishRequestCurl stOneTransfer entBuf (CURLcode.other 6) true 0 0 false).2.invocations =
      stOneTransfer.invocations ++
        [{ id := 0, cbTag := 0, response := makeResponse entBuf.handler,
           status := 0, error := "buffered detail" }]) ∧
    ((Aur.FinishRequestCurl stOneTransfer entPlain (CURLcode.other 6) true 0 0 false).2.invocations =
      stOneTransfer.invocations ++
        [{ id := 0, cbTag := 0, response := makeResponse entPlain.handler,
           status := 0, error := curl_easy_strerror (CURLcode.other 6) }]) :=
  ⟨(finishRequest_error_string stOneTransfer entPlain CURLcode.ok 200 0).1 rfl,
   (finishRequest_error_string stOneTransfer entBuf (CURLcode.other 6) 0 0).2.1
     (by decide) (by decide),
   (finishRequest_error_string stOneTransfer entPlain (CURLcode.other 6) 0 0).2.2
     (by decide) rfl⟩

/-! ### Claim C6 -/

/-- The single child-watcher entry of `stChild`. -/
def entClone : ActiveEntry := { kind := HandleKind.child, id := 0, handler := hClone }

/-- C6 counterexample: a child reaped with exit status 3 yields the error
string "git exited with unexpected exit status 3" (aur.cc line 446), not
the claimed "exited with unexpected status 3"; the two strings differ
(the code writes "unexpected exit status", the claim "unexpected
status"). -/
theorem onCloneExit_error_text_differs :
    (Aur.OnCloneExit stChild entClone 3 0 false).2.invocations =
      [{ id := 0, cbTag := 0, response := Response.clone "clone", status := 3,
         error := "git exited with unexpected exit status 3" }] ∧
    "git exited with unexpected exit status 3" ≠ "exited with unexpected status 3" := by
  decide

/-- C6 (amended): when a spawned child is reaped, the watcher is removed
from the active set before the callback runs, and the Handler's callback
receives a response wrapping the operation name together with the exit
status; a non-zero exit status N yields the error string
"git exited with unexpected exit status N" (which contains the digits of
N, e.g. "3" for status 3), and exit status 0 yields an empty error
string. -/
theorem onCloneExit_spec (st : AurState) (e : ActiveEntry)
    (siStatus cbRet : Int) (op : String)
    (hk : e.handler.respKind = RespKind.clone op) :
    (Aur.OnCloneExit st e siStatus cbRet false).2.active = eraseId st.active e.id ∧
    (siStatus ≠ 0 →
      (Aur.OnCloneExit st e siStatus cbRet false).2.invocations =
        st.invocations ++
          [{ id := e.id, cbTag := e.handler.cbTag, response := Response.clone op,
             status := siStatus,
             error := "git exited with unexpected exit status " ++ toString siStatus }]) ∧
    (siStatus = 0 →
      (Aur.OnCloneExit st e siStatus cbRet false).2.invocations =
        st.invocations ++
          [{ id := e.id, cbTag := e.handler.cbTag, response := Response.clone op,
             status := 0, error := "" }]) := by
  refine ⟨?_, ?_, ?_⟩
  · simp [Aur.OnCloneExit, Aur.FinishRequestSource, Aur.RunCallback]
  · intro hs
    simp [Aur.OnCloneExit, Aur.FinishRequestSource, Aur.RunCallback, makeResponse, hk, hs]
  · intro hs
    simp [Aur.OnCloneExit, Aur.FinishRequestSource, Aur.RunCallback, makeResponse, hk, hs]

theorem onCloneExit_spec_witness :
    (Aur.OnCloneExit stChild entClone 3 0 false).2.active =
        eraseId stChild.active entClone.id ∧
    (Aur.OnCloneExit stChild entClone 3 0 false).2.invocations =
      stChild.invocations ++
        [{ id := entClone.id, cbTag := entClone.handler.cbTag,
           response := Response.clone "clone", status := 3,
           error := "git exited with unexpected exit status " ++ toString (3 : Int) }] ∧
    (Aur.OnCloneExit stChild entClone 0 0 false).2.invocations =
      stChild.invocations ++
        [{ id := entClone.id, cbTag := entClone.handler.cbTag,
           response := Response.clone "clone", status := 0, error := "" }] :=
  ⟨(onCloneExit_spec stChild entClone 3 0 "clone" rfl).1,
   (onCloneExit_spec stChild entClone 3 0 "clone" rfl).2.1 (by decide),
   (onCloneExit_spec stChild entClone 0 0 "clone" rfl).2.2 rfl⟩

/-! ### Claim C7 -/

/-- C7: with no `.git` marker in the target directory, the spawned
child's argument vector is exactly `git clone --quiet <url>` and the
queued handler reports the operation "clone"; with the marker present it
is exactly `git -C <dir> pull --quiet --rebase --autostash --ff-only`
and the handler reports "update". -/
theorem queueClone_argv_operation (st : AurState) (repo url : String)
    (pid cbTag : Nat) (cbRet : Int) :
    (Aur.QueueCloneRequest st repo url false (Except.ok pid) cbTag cbRet false).2 =
      some ["git", "clone", "--quiet", url] ∧
    (Aur.QueueCloneRequest st repo url false (Except.ok pid) cbTag cbRet false).1.active =
      st.active ++
        [{ kind := HandleKind.child, id := st.nextId,
           handler := { body := "", errorBuffer := "",
                        respKind := RespKind.clone "clone", cbTag := cbTag } }] ∧
    (Aur.QueueCloneRequest st repo url true (Except.ok pid) cbTag cbRet false).2 =
      some ["git", "-C", repo, "pull", "--quiet", "--rebase", "--autostash", "--ff-only"] ∧
    (Aur.QueueCloneRequest st repo url true (Except.ok pid) cbTag cbRet false).1.active =
      st.active ++
        [{ kind := HandleKind.child, id := st.nextId,
           handler := { body := "", errorBuffer := "",
                        respKind := RespKind.clone "update", cbTag := cbTag } }] :=
  ⟨rfl, rfl, rfl, rfl⟩

/-! ### Claim C8 -/

theorem string_append_ne_empty (a b : String) (ha : a ≠ "") : a ++ b ≠ "" := by
  intro h
  apply ha
  have hd := congrArg String.data h
  rw [String.data_append] at hd
  have hnil : a.data = [] := (List.append_eq_nil.mp hd).1
  cases a
  simp only [String.data] at hnil
  simp [hnil]

/-- C8: when `fork` fails while queuing a synchronization request, the
Handler's callback is invoked synchronously (its invocation is already in
the log when the queuing call returns) with the negative status `-errno`
and a non-empty descriptive error string; no child is spawned, no watcher
is registered, and the active set is unchanged. -/
theorem queueClone_forkfail (st : AurState) (repo url : String) (marker : Bool)
    (errno cbTag : Nat) (cbRet : Int) (h : 0 < errno) :
    (Aur.QueueCloneRequest st repo url marker (Except.error errno) cbTag cbRet false).1.active =
      st.active ∧
    (Aur.QueueCloneRequest st repo url marker (Except.error errno) cbTag cbRet false).2 = none ∧
    (Aur.QueueCloneRequest st repo url marker (Except.error errno) cbTag cbRet false).1.invocations =
      st.invocations ++
        [{ id := st.nextId, cbTag := cbTag,
           response := Response.clone (if marker then "update" else "clone"),
           status := -(errno : Int),
           error := "failed to fork new process for git: " ++ Aur.strerrorSys errno }] ∧
    (-(errno : Int) < 0) ∧
    ("failed to fork new process for git: " ++ Aur.strerrorSys errno) ≠ "" := by
  refine ⟨rfl, rfl, rfl, ?_, string_append_ne_empty _ _ (by decide)⟩
  omega

theorem queueClone_forkfail_witness :
    (Aur.QueueCloneRequest stEmpty "pkg" "https://aur.example/pkg.git" false
        (Except.error 12) 0 0 false).1.active = stEmpty.active ∧
    (Aur.QueueCloneRequest stEmpty "pkg" "https://aur.example/pkg.git" false
        (Except.error 12) 0 0 false).2 = none ∧
    (Aur.QueueCloneRequest stEmpty "pkg" "https://aur.example/pkg.git" false
        (Except.error 12) 0 0 false).1.invocations =
      stEmpty.invocations ++
        [{ id := stEmpty.nextId, cbTag := 0,
           response := Response.clone (if false then "update" else "clone"),
           status := -((12 : Nat) : Int),
           error := "failed to fork new process for git: " ++ Aur.strerrorSys 12 }] ∧
    (-((12 : Nat) : Int) < 0) ∧
    ("failed to fork new process for git: " ++ Aur.strerrorSys 12) ≠ "" :=
  queueClone_forkfail stEmpty "pkg" "https://aur.example/pkg.git" false 12 0 0 (by decide)

/-! ### Claim C9 -/

/-- Concatenation of a list of byte chunks in delivery order. -/
def concatAll : List String → String
  | [] => ""
  | s :: l => s ++ concatAll l

theorem string_append_assoc (a b c : String) : a ++ b ++ c = a ++ (b ++ c) := by
  cases a with
  | mk la =>
    cases b with
    | mk lb =>
      cases c with
      | mk lc =>
        show String.mk (la ++ lb ++ lc) = String.mk (la ++ (lb ++ lc))
        rw [List.append_assoc]

theorem runDebugTrace_filter (evts : List (CurlInfoType × String)) :
    ∀ s : String,
      runDebugTrace evts s =
        s ++ concatAll
          ((evts.filter (fun p => p.1 = CurlInfoType.HEADER_OUT)).map Prod.snd) := by
  induction evts with
  | nil => intro s; simp [runDebugTrace, concatAll, String.append_empty]
  | cons p rest ih =>
    intro s
    obtain ⟨t, d⟩ := p
    by_cases ht : t = CurlInfoType.HEADER_OUT
    · have hstep : runDebugTrace ((t, d) :: rest) s = runDebugTrace rest (s ++ d) := by
        simp [runDebugTrace, ResponseHandler.DebugCallback, ht]
      rw [hstep, ih]
      simp only [List.filter_cons, ht]
      rw [if_pos (by simp)]
      simp [concatAll, string_append_assoc]
    · have hstep : runDebugTrace ((t, d) :: rest) s = runDebugTrace rest s := by
        simp [runDebugTrace, ResponseHandler.DebugCallback, ht]
      rw [hstep, ih]
      simp only [List.filter_cons]
      rw [if_neg (by simp [ht])]

/-- C9: debug-mode selection at engine construction and header-only
filtering of the trace file.  A toggle value prefixed `requests:` selects
`REQUESTS` mode with the remainder as trace-file path (the file is
truncated, so tracing starts from empty contents); any other non-empty
value selects `VERBOSE_STDERR`; an empty value selects `NONE`.  In
`REQUESTS` mode, the trace file ends up holding exactly the concatenation
of the `CURLINFO_HEADER_OUT` chunks — body bytes and every other trace
category are filtered out by `ResponseHandler::DebugCallback`. -/
theorem debug_mode_selection :
    (∀ path : String,
      debugInit ("requests:" ++ path) = (DebugLevel.REQUESTS, some path)) ∧
    (∀ env : String, env ≠ "" →
      env.data.take ("requests:".data.length) ≠ "requests:".data →
      debugInit env = (DebugLevel.VERBOSE_STDERR, none)) ∧
    debugInit "" = (DebugLevel.NONE, none) ∧
    (∀ evts : List (CurlInfoType × String),
      runDebugTrace evts "" =
        concatAll
          ((evts.filter (fun p => p.1 = CurlInfoType.HEADER_OUT)).map Prod.snd)) := by
  refine ⟨?_, ?_, by decide, ?_⟩
  · intro path
    have hdata : ("requests:" ++ path).data = "requests:".data ++ path.data :=
      String.data_append _ _
    unfold debugInit
    rw [hdata, List.take_left, if_pos rfl, List.drop_left]
  · intro env h1 h2
    unfold debugInit
    rw [if_neg h2, if_pos h1]
  · intro evts
    rw [runDebugTrace_filter evts ""]
    exact String.empty_append _

theorem debug_mode_selection_witness :
    debugInit ("requests:" ++ "/tmp/trace") = (DebugLevel.REQUESTS, some "/tmp/trace") ∧
    debugInit "1" = (DebugLevel.VERBOSE_STDERR, none) ∧
    debugInit "" = (DebugLevel.NONE, none) ∧
    runDebugTrace
        [(CurlInfoType.HEADER_OUT, "GET /rpc"), (CurlInfoType.DATA_IN, "body bytes"),
         (CurlInfoType.HEADER_OUT, "Host: aur"), (CurlInfoType.TEXT, "info")] "" =
      concatAll
        (([(CurlInfoType.HEADER_OUT, "GET /rpc"), (CurlInfoType.DATA_IN, "body bytes"),
           (CurlInfoType.HEADER_OUT, "Host: aur"),
           (CurlInfoType.TEXT, "info")].filter
             (fun p => p.1 = CurlInfoType.HEADER_OUT)).map Prod.snd) :=
  ⟨debug_mode_selection.1 "/tmp/trace",
   debug_mode_selection.2.1 "1" (by decide) (by decide),
   debug_mode_selection.2.2.1,
   debug_mode_selection.2.2.2 _⟩

/-! ### Claim C10 -/

/-- Specification-side description of what one HTTP queue call adds to
the active set: one fresh transfer handle per endpoint, with consecutive
fresh ids, each associated with a fresh handler holding the caller's
callback.  Compared below against `Aur.QueueHttpRequest`, which is
translated from the source. -/
def perEndpointEntries (n startId cbTag : Nat) : List ActiveEntry :=
  match n with
  | 0 => []
  | Nat.succ m =>
    { kind := HandleKind.transfer, id := startId,
      handler := { body := "", errorBuffer := "", respKind := RespKind.typed,
                   cbTag := cbTag } } :: perEndpointEntries m (startId + 1) cbTag

theorem perEndpointEntries_length (n : Nat) :
    ∀ startId cbTag : Nat, (perEndpointEntries n startId cbTag).length = n := by
  induction n with
  | zero => intro startId cbTag; rfl
  | succ m ih => intro startId cbTag; simp [perEndpointEntries, ih]

theorem queueHttp_state (endpoints : List String) (cbTag : Nat) :
    ∀ st : AurState,
      (Aur.QueueHttpRequest st endpoints cbTag).active =
        st.active ++ perEndpointEntries endpoints.length st.nextId cbTag ∧
      (Aur.QueueHttpRequest st endpoints cbTag).invocations = st.invocations ∧
      (Aur.QueueHttpRequest st endpoints cbTag).nextId = st.nextId + endpoints.length ∧
      (Aur.QueueHttpRequest st endpoints cbTag).cancelled = st.cancelled ∧
      (Aur.QueueHttpRequest st endpoints cbTag).freed = st.freed := by
  induction endpoints with
  | nil =>
    intro st
    refine ⟨?_, rfl, rfl, rfl, rfl⟩
    simp [Aur.QueueHttpRequest, perEndpointEntries]
  | cons e rest ih =>
    intro st
    have hstep : Aur.QueueHttpRequest st (e :: rest) cbTag =
        Aur.QueueHttpRequest
          { st with
            active := st.active ++
              [{ kind := HandleKind.transfer, id := st.nextId,
                 handler := { body := "", errorBuffer := "", respKind := RespKind.typed,
                              cbTag := cbTag } }],
            nextId := st.nextId + 1 } rest cbTag := rfl
    rw [hstep]
    obtain ⟨h1, h2, h3, h4, h5⟩ := ih _
    refine ⟨?_, h2, ?_, h4, h5⟩
    · rw [h1]
      simp [perEndpointEntries, List.append_assoc]
    · rw [h3]
      simp only [List.length_cons]
      omega

/-- C10: one `QueueHttpRequest` call (the shared implementation of
`QueueRpcRequest`, `QueueRawRequest` and `QueueTarballRequest`) adds to
the active set exactly one fresh transfer handle with one fresh Handler
per endpoint string returned by `Build`, each holding the caller's
callback, and invokes nothing itself; if `Build` returns no endpoints the
call leaves the engine state unchanged, so the callback can never be
invoked on behalf of that call. -/
theorem queueHttp_per_endpoint (st : AurState) (endpoints : List String) (cbTag : Nat) :
    (Aur.QueueHttpRequest st endpoints cbTag).active =
      st.active ++ perEndpointEntries endpoints.length st.nextId cbTag ∧
    (Aur.QueueHttpRequest st endpoints cbTag).active.length =
      st.active.length + endpoints.length ∧
    (Aur.QueueHttpRequest st endpoints cbTag).invocations = st.invocations ∧
    (endpoints = [] → Aur.QueueHttpRequest st endpoints cbTag = st) := by
  obtain ⟨h1, h2, h3, h4, h5⟩ := queueHttp_state endpoints cbTag st
  refine ⟨h1, ?_, h2, ?_⟩
  · rw [h1]
    simp [perEndpointEntries_length]
  · intro he
    subst he
    rfl

theorem queueHttp_per_endpoint_witness :
    (Aur.QueueHttpRequest stEmpty ["https://aur.example/rpc?a", "https://aur.example/rpc?b"] 3).active =
      stEmpty.active ++ perEndpointEntries 2 stEmpty.nextId 3 ∧
    (Aur.QueueHttpRequest stEmpty ["https://aur.example/rpc?a", "https://aur.example/rpc?b"] 3).active.length =
      stEmpty.active.length + 2 ∧
    Aur.QueueHttpRequest stEmpty [] 3 = stEmpty :=
  ⟨(queueHttp_per_endpoint stEmpty ["https://aur.example/rpc?a", "https://aur.example/rpc?b"] 3).1,
   (queueHttp_per_endpoint stEmpty ["https://aur.example/rpc?a", "https://aur.example/rpc?b"] 3).2.1,
   (queueHttp_per_endpoint stEmpty [] 3).2.2.2 rfl⟩

/-! ### Claim C1: machinery -/

theorem runCallback_snd_cancelled (st : AurState) (e : ActiveEntry) (status : Int)
    (error : String) (cbRet : Int) (cc : Bool) :
    (Aur.RunCallback st e status error cbRet cc).2.cancelled =
      (if cc then true else st.cancelled) := by
  by_cases h : cc <;> simp [Aur.RunCallback, h, cancelAll_cancelled]

theorem finishRequestCurl_snd_cancelled (st : AurState) (e : ActiveEntry)
    (result : CURLcode) (respCode cbRet : Int) (cc : Bool) :
    (Aur.FinishRequestCurl st e result true respCode cbRet cc).2.cancelled =
      (if cc then true else st.cancelled) := by
  simp [Aur.FinishRequestCurl, runCallback_snd_cancelled]

theorem checkFinishedDone_snd_cancelled (st : AurState) (e : ActiveEntry)
    (result : CURLcode) (respCode cbRet : Int) (cc : Bool) :
    (Aur.CheckFinishedDone st e result respCode cbRet cc).2.cancelled =
      (if cbRet < 0 then true else if cc then true else st.cancelled) := by
  by_cases h : cbRet < 0 <;>
    simp [Aur.CheckFinishedDone, finishRequestCurl_dispatch_fst, h,
      cancelAll_cancelled, finishRequestCurl_snd_cancelled]

theorem onCloneExit_snd_cancelled (st : AurState) (e : ActiveEntry)
    (s cbRet : Int) (cc : Bool) :
    (Aur.OnCloneExit st e s cbRet cc).2.cancelled =
      (if cc then true else st.cancelled) := by
  simp [Aur.OnCloneExit, Aur.FinishRequestSource, runCallback_snd_cancelled]

theorem checkFinishedDone_clean (st : AurState) (e : ActiveEntry)
    (result : CURLcode) (respCode cbRet : Int) (h1 : ¬ cbRet < 0) :
    (Aur.CheckFinishedDone st e result respCode cbRet false).2 =
      { st with
        invocations := st.invocations ++
          [{ id := e.id, cbTag := e.handler.cbTag, response := makeResponse e.handler,
             status := respCode,
             error := if result = CURLcode.ok then ""
                      else if e.handler.errorBuffer ≠ "" then e.handler.errorBuffer
                      else curl_easy_strerror result }],
        freed := st.freed ++ [e.id],
        active := eraseId st.active e.id } := by
  simp [Aur.CheckFinishedDone, Aur.FinishRequestCurl, Aur.RunCallback,
    finishRequestCurl_dispatch_fst, h1]

theorem onCloneExit_clean (st : AurState) (e : ActiveEntry) (s cbRet : Int) :
    (Aur.OnCloneExit st e s cbRet false).2 =
      { st with
        invocations := st.invocations ++
          [{ id := e.id, cbTag := e.handler.cbTag, response := makeResponse e.handler,
             status := s,
             error := if s ≠ 0 then
                        "git exited with unexpected exit status " ++ toString s
                      else "" }],
        freed := st.freed ++ [e.id],
        active := eraseId st.active e.id } := by
  simp [Aur.OnCloneExit, Aur.FinishRequestSource, Aur.RunCallback]

theorem lookupActive_mem {st : AurState} {id : Nat} {e : ActiveEntry}
    (h : lookupActive st id = some e) : e ∈ st.active :=
  List.mem_of_find?_eq_some h

theorem stepEvent_cancelled_mono (st : AurState) (ev : Event) (st' : AurState)
    (h : Aur.stepEvent st ev = some st') (hc : st.cancelled = true) :
    st'.cancelled = true := by
  cases ev with
  | stepFail => cases h
  | spurious =>
    injection h with h'
    rw [← h']; exact hc
  | transferDone id result respCode cbRet cc =>
    simp only [Aur.stepEvent] at h
    cases hl : lookupActive st id with
    | none => rw [hl] at h; injection h with h'; rw [← h']; exact hc
    | some e =>
      rw [hl] at h
      dsimp only at h
      by_cases hk : e.kind = HandleKind.transfer
      · rw [if_pos hk] at h
        injection h with h'
        rw [← h', checkFinishedDone_snd_cancelled]
        split
        · rfl
        · split
          · rfl
          · exact hc
      · rw [if_neg hk] at h; injection h with h'; rw [← h']; exact hc
  | childExit id s cbRet cc =>
    simp only [Aur.stepEvent] at h
    cases hl : lookupActive st id with
    | none => rw [hl] at h; injection h with h'; rw [← h']; exact hc
    | some e =>
      rw [hl] at h
      dsimp only at h
      by_cases hk : e.kind = HandleKind.child
      · rw [if_pos hk] at h
        injection h with h'
        rw [← h', onCloneExit_snd_cancelled]
        split
        · rfl
        · exact hc
      · rw [if_neg hk] at h; injection h with h'; rw [← h']; exact hc

theorem waitLoop_cancelled_mono (evs : List Event) :
    ∀ st r st', Aur.waitLoop evs st = some (r, st') → st.cancelled = true →
      st'.cancelled = true := by
  induction evs with
  | nil =>
    intro st r st' h hc
    rw [Aur.waitLoop.eq_def] at h
    by_cases hA : st.active.isEmpty
    · rw [if_pos hA] at h
      injection h with h'
      rw [Prod.mk.injEq] at h'
      rw [← h'.2]; exact hc
    · rw [if_neg hA] at h
      cases h
  | cons ev rest ih =>
    intro st r st' h hc
    rw [Aur.waitLoop.eq_def] at h
    by_cases hA : st.active.isEmpty
    · rw [if_pos hA] at h
      injection h with h'
      rw [Prod.mk.injEq] at h'
      rw [← h'.2]; exact hc
    · rw [if_neg hA] at h
      dsimp only at h
      cases hs : Aur.stepEvent st ev with
      | none =>
        rw [hs] at h
        injection h with h'
        rw [Prod.mk.injEq] at h'
        rw [← h'.2]; exact hc
      | some stm =>
        rw [hs] at h
        exact ih stm r st' h (stepEvent_cancelled_mono st ev stm hs hc)

/-- Shape of one non-failing reactor step whose resulting state is not
cancelled: either nothing happened to the engine, or exactly one entry
left the active set, its handler was invoked exactly once and then
released. -/
theorem stepEvent_shape (st : AurState) (ev : Event) (st' : AurState)
    (h : Aur.stepEvent st ev = some st') (hc : st'.cancelled = false) :
    st.cancelled = false ∧
    (st' = st ∨
      ∃ e : ActiveEntry, e ∈ st.active ∧ ∃ inv : Invocation, inv.id = e.id ∧
        st' = { st with invocations := st.invocations ++ [inv],
                        freed := st.freed ++ [e.id],
                        active := eraseId st.active e.id }) := by
  cases ev with
  | stepFail => cases h
  | spurious =>
    injection h with h'
    subst h'
    exact ⟨hc, Or.inl rfl⟩
  | transferDone id result respCode cbRet cc =>
    simp only [Aur.stepEvent] at h
    cases hl : lookupActive st id with
    | none =>
      rw [hl] at h; injection h with h'; subst h'
      exact ⟨hc, Or.inl rfl⟩
    | some e =>
      rw [hl] at h
      dsimp only at h
      by_cases hk : e.kind = HandleKind.transfer
      · rw [if_pos hk] at h
        injection h with h'
        subst h'
        rw [checkFinishedDone_snd_cancelled] at hc
        by_cases hr : cbRet < 0
        · rw [if_pos hr] at hc; cases hc
        · rw [if_neg hr] at hc
          by_cases hcc : cc = true
          · rw [if_pos hcc] at hc; cases hc
          · have hccf : cc = false := Bool.not_eq_true cc |>.mp hcc
            rw [if_neg hcc] at hc
            subst hccf
            refine ⟨hc, Or.inr ⟨e, lookupActive_mem hl, ?_⟩⟩
            exact ⟨_, rfl, checkFinishedDone_clean st e result respCode cbRet hr⟩
      · rw [if_neg hk] at h; injection h with h'; subst h'
        exact ⟨hc, Or.inl rfl⟩
  | childExit id s cbRet cc =>
    simp only [Aur.stepEvent] at h
    cases hl : lookupActive st id with
    | none =>
      rw [hl] at h; injection h with h'; subst h'
      exact ⟨hc, Or.inl rfl⟩
    | some e =>
      rw [hl] at h
      dsimp only at h
      by_cases hk : e.kind = HandleKind.child
      · rw [if_pos hk] at h
        injection h with h'
        subst h'
        rw [onCloneExit_snd_cancelled] at hc
        by_cases hcc : cc = true
        · rw [if_pos hcc] at hc; cases hc
        · have hccf : cc = false := Bool.not_eq_true cc |>.mp hcc
          rw [if_neg hcc] at hc
          subst hccf
          refine ⟨hc, Or.inr ⟨e, lookupActive_mem hl, ?_⟩⟩
          exact ⟨_, rfl, onCloneExit_clean st e s cbRet⟩
      · rw [if_neg hk] at h; injection h with h'; subst h'
        exact ⟨hc, Or.inl rfl⟩

/-- One completion step preserves the reachable-state invariant and the
conservation sum: invocation count plus in-flight count is unchanged. -/
theorem inv_step (st : AurState) (e : ActiveEntry) (inv : Invocation)
    (he : e ∈ st.active) (hid : inv.id = e.id) (hI : Inv st) :
    Inv { st with invocations := st.invocations ++ [inv],
                  freed := st.freed ++ [e.id],
                  active := eraseId st.active e.id } ∧
    (st.invocations ++ [inv]).length + (eraseId st.active e.id).length =
      st.invocations.length + st.active.length := by
  obtain ⟨hA, hL, hD⟩ := hI
  have hsub : (eraseId st.active e.id).Sublist st.active := eraseId_sublist _ _
  have herase : (eraseId st.active e.id).length + 1 = st.active.length :=
    eraseId_length he hA
  refine ⟨⟨?_, ?_, ?_⟩, ?_⟩
  · exact ((hsub.map ActiveEntry.id).nodup hA)
  · have hnotin : inv.id ∉ invIds st := by rw [hid]; exact hD e he
    show ((st.invocations ++ [inv]).map Invocation.id).Nodup
    rw [List.map_append, List.map_cons, List.map_nil, List.nodup_append]
    refine ⟨hL, List.nodup_singleton _, ?_⟩
    intro a ha hmem
    rw [List.mem_singleton] at hmem
    subst hmem
    exact hnotin ha
  · intro x hx
    obtain ⟨hx', hneq⟩ := mem_eraseId.mp hx
    show x.id ∉ (st.invocations ++ [inv]).map Invocation.id
    simp only [List.map_append, List.map_cons, List.map_nil, List.mem_append,
      List.mem_singleton]
    rintro (hcon | hcon)
    · exact hD x hx' (by simpa [invIds] using hcon)
    · rw [hid] at hcon; exact hneq hcon
  · simp only [List.length_append, List.length_cons, List.length_nil]
    omega

/-- Main induction for claim C1: along any run of the wait loop in which
cancellation never occurs (witnessed by the final state's flag being
clear), the invariant is preserved, the sum of delivered invocations and
in-flight handles is conserved, and the loop returns 0 exactly when the
active set has been emptied. -/
theorem waitLoop_clean (evs : List Event) :
    ∀ st r st', Aur.waitLoop evs st = some (r, st') → st'.cancelled = false →
      Inv st →
      Inv st' ∧
      st'.invocations.length + st'.active.length =
        st.invocations.length + st.active.length ∧
      (r = 0 ↔ st'.active = []) := by
  induction evs with
  | nil =>
    intro st r st' h hc hI
    rw [Aur.waitLoop.eq_def] at h
    by_cases hA : st.active.isEmpty
    · rw [if_pos hA] at h
      injection h with h'
      rw [Prod.mk.injEq] at h'
      obtain ⟨h1, h2⟩ := h'
      subst h2
      rw [hc] at h1
      simp only [if_neg (by decide : ¬ false = true)] at h1
      refine ⟨hI, rfl, ?_⟩
      constructor
      · intro _; exact List.isEmpty_iff.mp hA
      · intro _; exact h1.symm
    · rw [if_neg hA] at h
      cases h
  | cons ev rest ih =>
    intro st r st' h hc hI
    rw [Aur.waitLoop.eq_def] at h
    by_cases hA : st.active.isEmpty
    · rw [if_pos hA] at h
      injection h with h'
      rw [Prod.mk.injEq] at h'
      obtain ⟨h1, h2⟩ := h'
      subst h2
      rw [hc] at h1
      simp only [if_neg (by decide : ¬ false = true)] at h1
      refine ⟨hI, rfl, ?_⟩
      constructor
      · intro _; exact List.isEmpty_iff.mp hA
      · intro _; exact h1.symm
    · rw [if_neg hA] at h
      dsimp only at h
      cases hs : Aur.stepEvent st ev with
      | none =>
        rw [hs] at h
        injection h with h'
        rw [Prod.mk.injEq] at h'
        obtain ⟨h1, h2⟩ := h'
        subst h2
        refine ⟨hI, rfl, ?_⟩
        constructor
        · intro hr
          rw [← h1] at hr
          exact absurd hr (by decide)
        · intro hA'
          exact absurd (List.isEmpty_iff.mpr hA') hA
      | some stm =>
        rw [hs] at h
        have hstmC : stm.cancelled = false := by
          cases hcm : stm.cancelled with
          | false => rfl
          | true =>
            have hmono := waitLoop_cancelled_mono rest stm r st' h hcm
            rw [hmono] at hc
            cases hc
        obtain ⟨-, hshape⟩ := stepEvent_shape st ev stm hs hstmC
        obtain ⟨hI2, hlen2, hiff⟩ := ih stm r st' h hc (by
          cases hshape with
          | inl heq => rw [heq]; exact hI
          | inr hex =>
            obtain ⟨e, he, inv, hid, hmeq⟩ := hex
            rw [hmeq]
            exact (inv_step st e inv he hid hI).1)
        refine ⟨hI2, ?_, hiff⟩
        rw [hlen2]
        cases hshape with
        | inl heq => rw [heq]
        | inr hex =>
          obtain ⟨e, he, inv, hid, hmeq⟩ := hex
          rw [hmeq]
          exact (inv_step st e inv he hid hI).2

/-! ### Claim C1 -/

/-- C1: for a run starting from a state with N queued requests (each
physical transfer or spawned process one active handle, each with its
handler, none yet invoked) in which `CancelAll` is never invoked — in
this engine the flag `cancelled_` is set exactly by `CancelAll` and
cleared only at the head of `Wait`, so a run without cancellation is one
whose final flag is clear — the blocking `Wait` returns success (0) if
and only if the invocation log holds exactly N callback invocations at
the moment of return, and every Handler was invoked at most once
(pairwise-distinct handler ids in the log).  If the reactor step fails
mid-run, `Wait` returns `-EIO` and strictly fewer than N invocations have
occurred, so the equivalence is two-sided. -/
theorem wait_success_iff (st0 : AurState) (evs : List Event) (r : Int)
    (st' : AurState) (hI : Inv st0) (hlog : st0.invocations = [])
    (hw : Aur.Wait evs st0 = some (r, st'))
    (hnc : st'.cancelled = false) :
    (r = 0 ↔ st'.invocations.length = st0.active.length) ∧
    (invIds st').Nodup := by
  have hI0 : Inv { st0 with cancelled := false } := hI
  obtain ⟨hI', hsum, hiff⟩ := waitLoop_clean evs _ r st' hw hnc hI0
  have hsum' : st'.invocations.length + st'.active.length = st0.active.length := by
    have : ({ st0 with cancelled := false } : AurState).invocations.length = 0 := by
      show st0.invocations.length = 0
      rw [hlog]; rfl
    rw [this] at hsum
    simpa using hsum
  refine ⟨?_, hI'.2.1⟩
  constructor
  · intro hr
    have hAe := hiff.mp hr
    rw [hAe] at hsum'
    simpa using hsum'
  · intro hlen
    apply hiff.mpr
    rw [hlen] at hsum'
    have : st'.active.length = 0 := by omega
    exact List.length_eq_zero.mp this

/-- Two queued requests: one transfer, one spawned process. -/
def stTwo : AurState :=
  { active := [{ kind := HandleKind.transfer, id := 0, handler := hTyped },
               { kind := HandleKind.child, id := 1, handler := hClone }],
    cancelled := false, invocations := [], freed := [], nextId := 2 }

/-- An event trace completing both requests of `stTwo` with no
cancellation. -/
def evsTwo : List Event :=
  [Event.spurious, Event.transferDone 0 CURLcode.ok 200 0 false,
   Event.childExit 1 0 0 false]

/-- The state in which the run of `evsTwo` from `stTwo` ends. -/
def stTwoFinal : AurState :=
  { active := [], cancelled := false,
    invocations :=
      [{ id := 0, cbTag := 0, response := Response.body "", status := 200, error := "" },
       { id := 1, cbTag := 0, response := Response.clone "clone", status := 0, error := "" }],
    freed := [0, 1], nextId := 2 }

theorem wait_success_iff_witness :
    ((0 : Int) = 0 ↔ stTwoFinal.invocations.length = stTwo.active.length) ∧
    (invIds stTwoFinal).Nodup :=
  wait_success_iff stTwo evsTwo 0 stTwoFinal (by decide) rfl (by decide) rfl

theorem cancelAll_releases_transfers_only_witness :
    (Aur.CancelAll stMixed).active = [] ∧
    (0 : Nat) ∈ (Aur.CancelAll stMixed).freed ∧
    (1 : Nat) ∉ (Aur.CancelAll stMixed).freed :=
  ⟨(cancelAll_releases_transfers_only stMixed (by decide)).1,
   (cancelAll_releases_transfers_only stMixed (by decide)).2.1
     { kind := HandleKind.transfer, id := 0, handler := hTyped } (by decide) rfl,
   (cancelAll_releases_transfers_only stMixed (by decide)).2.2
     { kind := HandleKind.child, id := 1, handler := hClone } (by decide) rfl (by decide)⟩

end Auracle
